import Mathlib

/-!
Verification of the banking-backend transaction core.

Shallow embedding of the Go sources:
  internal/services/transaction_service.go  (Credit / Debit / Transfer)
  internal/services/balance_service.go      (GetBalance / SafeUpdateBalance / GetBalanceHistory)
  internal/services/redis_cache.go          (Get / Set on string values)
  internal/processing/worker_pool.go        (SubmitJob / processResults / handleRetry)
  internal/models (Transaction, Validate)   and the atomic transaction counters.

Monetary amounts (float64 in the source) are modelled as rationals: none of
the verified properties depends on floating-point rounding.  UUIDs are
modelled as naturals.  The GORM transaction closure is modelled as a pure
function on a Store snapshot: an error inside the closure rolls the whole
transaction back, which the embedding renders by returning the original
snapshot unchanged.  The transaction counters are Go int64 values: the
embedding keeps them as integers in [-2^63, 2^63) and applies the
two's-complement wrap of atomic.AddInt64 at every addition.
-/

namespace Banking

/-- User identifiers stand in for the UUID values of the source. -/
abbrev UserId := Nat

/-- Monetary amounts (float64 in the source, rational here). -/
abbrev Money := ℚ

/-- Transaction types of internal/models (TransactionType constants). -/
inductive TransactionType where
  | transfer
  | deposit
  | withdraw
  | payment
  | refund
deriving DecidableEq, Repr

/-- Transaction statuses of internal/models (TransactionStatus constants). -/
inductive TransactionStatus where
  | pending
  | completed
  | failed
  | cancelled
  | refund
deriving DecidableEq, Repr

/-- Ledger row, following models.Transaction (relationship fields omitted). -/
structure Transaction where
  id : Nat
  fromUserID : Option UserId
  toUserID : Option UserId
  amount : Money
  txType : TransactionType
  status : TransactionStatus
  reference : String
  createdAt : Nat
deriving DecidableEq, Repr

/-- Balance-history row, following models.BalanceHistory. -/
structure BalanceHistory where
  id : Nat
  userId : UserId
  previousAmount : Money
  newAmount : Money
  changeAmount : Money
  changeType : String
  createdAt : Nat
deriving DecidableEq, Repr

/-- Audit-log row (entity-scoped fields only; ip / user agent omitted). -/
structure AuditLog where
  id : Nat
  action : String
  createdAt : Nat
deriving DecidableEq, Repr

/-- Go interface\x7b\x7d values that flow through the CacheService: the Redis
backend stores strings, the hit branch of GetBalance expects a float64. -/
inductive GoVal where
  | str (s : String)
  | num (q : Money)
deriving DecidableEq, Repr

/-- Error kinds produced by the embedded service code, one constructor per
distinct fmt.Errorf message relevant to the claims. -/
inductive ServiceError where
  | amountNotPositive
  | sameAccount
  | balanceNotFound
  | insufficientBalance
  | amountTooHigh
  | invalidStatus
  | invalidUsers
deriving DecidableEq, Repr

/-- Durable state plus the process-external cache: balances table
(user_id → amount), transactions table, balance_history table, audit_logs
table, and the key-value cache. -/
structure Store where
  balances : UserId → Option Money
  ledger : List Transaction
  history : List BalanceHistory
  auditLogs : List AuditLog
  cache : String → Option GoVal

/-- Cache key used for a user's balance ("balance:\x7buser_id\x7d"). -/
def balanceKey (u : UserId) : String := "balance:" ++ toString u

/-- Writes the balances row of one user (gorm Update "amount" where user_id = ?). -/
def setBalance (s : Store) (u : UserId) (v : Money) : Store :=
  { s with balances := fun w => if w = u then some v else s.balances w }

/-- Updates the status of the ledger rows matching an id
(gorm Update "status" where id = ?). -/
def setTxStatus (l : List Transaction) (id : Nat) (st : TransactionStatus) : List Transaction :=
  l.map fun t => if t.id = id then { t with status := st } else t

/-- TransactionService.Credit.  Source order inside the GORM closure: create
the pending ledger row, read the balance row (error if absent), write
balance + amount, set the ledger row completed.  Any error rolls the whole
transaction back, so the error cases return the snapshot unchanged.
No cache operation appears anywhere in the source function. -/
def credit (s : Store) (accountID : UserId) (amount : Money) (txId now : Nat) :
    Store × Option ServiceError :=
  if amount ≤ 0 then (s, some .amountNotPositive)
  else
    match s.balances accountID with
    | none => (s, some .balanceNotFound)
    | some bal =>
      let trec : Transaction :=
        { id := txId, fromUserID := none, toUserID := some accountID, amount := amount,
          txType := .deposit, status := .pending, reference := "Credit transaction",
          createdAt := now }
      let s1 : Store := { s with ledger := s.ledger ++ [trec] }
      let s2 := setBalance s1 accountID (bal + amount)
      let s3 : Store := { s2 with ledger := setTxStatus s2.ledger txId .completed }
      (s3, none)

/-- TransactionService.Debit.  Same envelope as Credit with the in-transaction
sufficiency check balance.Amount < amount; failure rolls back, so the pending
ledger row created first is discarded and no row is persisted.  No cache
operation appears in the source function. -/
def debit (s : Store) (accountID : UserId) (amount : Money) (txId now : Nat) :
    Store × Option ServiceError :=
  if amount ≤ 0 then (s, some .amountNotPositive)
  else
    match s.balances accountID with
    | none => (s, some .balanceNotFound)
    | some bal =>
      if bal < amount then (s, some .insufficientBalance)
      else
        let trec : Transaction :=
          { id := txId, fromUserID := some accountID, toUserID := none, amount := amount,
            txType := .withdraw, status := .pending, reference := "Debit transaction",
            createdAt := now }
        let s1 : Store := { s with ledger := s.ledger ++ [trec] }
        let s2 := setBalance s1 accountID (bal - amount)
        let s3 : Store := { s2 with ledger := setTxStatus s2.ledger txId .completed }
        (s3, none)

/-- TransactionService.Transfer.  Checks from ≠ to and amount > 0, then inside
one GORM closure: create pending row, read sender balance (sufficiency check),
read receiver balance, update sender via gorm.Expr "amount - ?", update
receiver via gorm.Expr "amount + ?", set the row completed.  The expression
updates apply to the stored value, modelled with Option.map over the row.
No cache operation appears in the source function. -/
def transfer (s : Store) (fromID toID : UserId) (amount : Money) (txId now : Nat) :
    Store × Option ServiceError :=
  if fromID = toID then (s, some .sameAccount)
  else if amount ≤ 0 then (s, some .amountNotPositive)
  else
    match s.balances fromID with
    | none => (s, some .balanceNotFound)
    | some fromBal =>
      if fromBal < amount then (s, some .insufficientBalance)
      else
        match s.balances toID with
        | none => (s, some .balanceNotFound)
        | some _ =>
          let trec : Transaction :=
            { id := txId, fromUserID := some fromID, toUserID := some toID, amount := amount,
              txType := .transfer, status := .pending, reference := "Transfer transaction",
              createdAt := now }
          let s1 : Store := { s with ledger := s.ledger ++ [trec] }
          let s2 : Store := { s1 with balances := fun w =>
            if w = fromID then (s1.balances w).map (fun b => b - amount) else s1.balances w }
          let s3 : Store := { s2 with balances := fun w =>
            if w = toID then (s2.balances w).map (fun b => b + amount) else s2.balances w }
          let s4 : Store := { s3 with ledger := setTxStatus s3.ledger txId .completed }
          (s4, none)

/-- models.Transaction.Validate: amount must be positive and at most
1,000,000; status refund is not in the accepted status list; user fields must
match the transaction type.  (The type check of the source accepts all five
constructors of the inductive type, so it imposes no condition here.) -/
def transactionValidate (t : Transaction) : Option ServiceError :=
  if t.amount ≤ 0 then some .amountNotPositive
  else if 1000000 < t.amount then some .amountTooHigh
  else if t.status = .refund then some .invalidStatus
  else
    match t.txType with
    | .transfer =>
      if t.fromUserID = none ∨ t.toUserID = none then some .invalidUsers
      else if t.fromUserID = t.toUserID then some .sameAccount
      else none
    | .deposit =>
      if t.toUserID = none then some .invalidUsers
      else if t.fromUserID ≠ none then some .invalidUsers
      else none
    | .withdraw =>
      if t.fromUserID = none then some .invalidUsers
      else if t.toUserID ≠ none then some .invalidUsers
      else none
    | _ => none

/-- BalanceService.GetBalance read path, parameterised by the cache lookup and
the repository value.  The hit branch requires the cached value to be a
float64 (GoVal.num); anything else falls through to the repository, whose
value is returned together with the flag telling whether the cache hit branch
was taken.  Returns none when the repository has no row and errors. -/
def getBalanceThroughCache (cacheGet : String → Option GoVal) (repoBalance : Option Money)
    (u : UserId) : Option (Money × Bool) :=
  match cacheGet (balanceKey u) with
  | some (GoVal.num q) => some (q, true)
  | _ => repoBalance.map (fun b => (b, false))

/-- Redis Get: the stored value is always a string, and a present key comes
back as a Go string value (redis_cache.go Get returns result of type string). -/
def redisGet (store : String → Option String) (k : String) : Option GoVal :=
  (store k).map GoVal.str

/-- Redis Set serialisation: strings pass through, any other value is
marshalled to its JSON text (redis_cache.go Set). -/
def serializeGoVal : GoVal → String
  | .str s => s
  | .num q => toString q

/-- Redis Set: stores the serialised string under the key. -/
def redisSet (store : String → Option String) (k : String) (v : GoVal) :
    String → Option String :=
  fun k2 => if k2 = k then some (serializeGoVal v) else store k2

/-- BalanceService.SafeUpdateBalance (per-account lock elided: the embedding
is sequential).  Reads the current balance, rejects a negative result, writes
the new balance, appends the balance-history row that the repository's
SaveBalanceHistory creates (NewAmount = written balance, ChangeType
BALANCE_UPDATE, zero previous/change fields), deletes the cache key
balance:\x7buser\x7d, and appends the audit row.  Errors roll nothing forward. -/
def safeUpdateBalance (s : Store) (accountID : UserId) (amount : Money) (rowId now : Nat) :
    Store × Option ServiceError :=
  match s.balances accountID with
  | none => (s, some .balanceNotFound)
  | some current =>
    let newBalance := current + amount
    if newBalance < 0 then (s, some .insufficientBalance)
    else
      let s1 := setBalance s accountID newBalance
      let s2 : Store := { s1 with history := s1.history ++
        [{ id := rowId, userId := accountID, previousAmount := 0, newAmount := newBalance,
           changeAmount := 0, changeType := "BALANCE_UPDATE", createdAt := now }] }
      let s3 : Store := { s2 with cache := fun k =>
        if k = (balanceKey accountID) then none else s2.cache k }
      let action := if amount < 0 then "BALANCE_DEBIT" else "BALANCE_CREDIT"
      let s4 : Store := { s3 with auditLogs := s3.auditLogs ++
        [{ id := rowId, action := action, createdAt := now }] }
      (s4, none)

/-- Audit-log actions that BalanceService.GetBalanceHistory converts into
balance-history entries. -/
def historyActions : List String := ["BALANCE_UPDATE", "BALANCE_CREDIT", "BALANCE_DEBIT"]

/-- BalanceService.GetBalanceHistory: takes the user's audit logs (the audit
repository returns them ordered created_at descending, at most 100) and maps
the balance-related actions to BalanceHistory values.  The amount fields are
left at their zero values: the source only copies ID, user, action and
created_at, with a comment that amounts "would need to be parsed". -/
def getBalanceHistoryFromAudit (logs : List AuditLog) (uid : UserId) : List BalanceHistory :=
  ((logs.take 100).filter (fun l => l.action ∈ historyActions)).map fun l =>
    { id := l.id, userId := uid, previousAmount := 0, newAmount := 0, changeAmount := 0,
      changeType := l.action, createdAt := l.createdAt }

/-- Scan loop of BalanceHandler.GetBalanceAtTime: walks the history list in
order and keeps overwriting the result with each entry whose created_at is at
or before the timestamp, so it ends on the last such entry in list order. -/
def scanBalanceAt (rows : List BalanceHistory) (ts : Nat) : Option Money :=
  rows.foldl (fun acc e => if e.createdAt ≤ ts then some e.newAmount else acc) none

/-- BalanceHandler.GetBalanceAtTime: derive the history from the audit logs,
scan it, and fall back to the current balance when no entry qualified. -/
def getBalanceAtTime (logs : List AuditLog) (uid : UserId) (ts : Nat) (currentBalance : Money) :
    Money :=
  match scanBalanceAt (getBalanceHistoryFromAudit logs uid) ts with
  | some v => v
  | none => currentBalance

/-- Modelled from the spec: get_balance_at "derives the balance at ts by
scanning BalanceHistory rows for the user in created_at order and returning
the new_amount of the latest row with created_at ≤ ts, or the current balance
if no history precedes ts".  Stated over the user's real balance_history rows,
for comparison with the handler above. -/
def specBalanceAt (rows : List BalanceHistory) (ts : Nat) (currentBalance : Money) : Money :=
  match rows.foldl (fun acc e =>
      if e.createdAt ≤ ts then
        match acc with
        | none => some e
        | some b => if b.createdAt ≤ e.createdAt then some e else some b
      else acc) none with
  | some e => e.newAmount
  | none => currentBalance

/-- Effective limit of TransactionHandler.GetTransactionHistory: an absent
parameter defaults to "50"; an unparsable value (none here), a value ≤ 0 or a
value > 100 is replaced by 50; anything else passes through. -/
def effectiveLimit (parsed : Option Int) : Int :=
  match parsed with
  | none => 50
  | some n => if n ≤ 0 ∨ 100 < n then 50 else n

/-- Effective offset of the same handler: unparsable or negative becomes 0. -/
def effectiveOffset (parsed : Option Int) : Int :=
  match parsed with
  | none => 0
  | some n => if n < 0 then 0 else n

/-- Modelled from the spec: the claimed clamp of the limit into [1, 100] with
default 50 when absent. -/
def specClampLimit (parsed : Option Int) : Int :=
  match parsed with
  | none => 50
  | some n => max 1 (min n 100)

/-- Atomic transaction counters (processing.TransactionCounters).  The int64
fields are modelled as unbounded integers; times are nanoseconds, amounts are
cents. -/
structure Counters where
  totalTransactions : Int
  successfulTransactions : Int
  failedTransactions : Int
  pendingTransactions : Int
  transferCount : Int
  depositCount : Int
  withdrawCount : Int
  totalAmountProcessed : Int
  largestTransaction : Int
  smallestTransaction : Int
  averageProcessingTime : Int
  fastestTransaction : Int
  slowestTransaction : Int
  validationErrors : Int
  insufficientBalanceErrors : Int
  systemErrors : Int
  retryCount : Int
deriving DecidableEq, Repr

/-- Smallest int64 value. -/
def int64Min : Int := -(2 ^ 63)

/-- Largest int64 value, also the initial value of the CAS-minimum extremes. -/
def int64Max : Int := 2 ^ 63 - 1

/-- Two's-complement wrap-around of Go's int64 arithmetic: reduction modulo
2^64 into [-2^63, 2^63). -/
def wrap64 (n : Int) : Int := (n + 2 ^ 63) % 2 ^ 64 - 2 ^ 63

/-- Go int64 addition (atomic.AddInt64, or plain + on int64): wraps. -/
def i64add (a b : Int) : Int := wrap64 (a + b)

/-- NewTransactionCounters: everything zero except the CAS minima. -/
def initialCounters : Counters :=
  { totalTransactions := 0, successfulTransactions := 0, failedTransactions := 0,
    pendingTransactions := 0, transferCount := 0, depositCount := 0, withdrawCount := 0,
    totalAmountProcessed := 0, largestTransaction := 0, smallestTransaction := int64Max,
    averageProcessingTime := 0, fastestTransaction := int64Max, slowestTransaction := 0,
    validationErrors := 0, insufficientBalanceErrors := 0, systemErrors := 0,
    retryCount := 0 }

/-- IncrementTotalTransactions. -/
def incrementTotalTransactions (c : Counters) : Counters :=
  { c with totalTransactions := i64add c.totalTransactions 1 }

/-- IncrementSuccessfulTransactions. -/
def incrementSuccessfulTransactions (c : Counters) : Counters :=
  { c with successfulTransactions := i64add c.successfulTransactions 1 }

/-- IncrementFailedTransactions. -/
def incrementFailedTransactions (c : Counters) : Counters :=
  { c with failedTransactions := i64add c.failedTransactions 1 }

/-- IncrementPendingTransactions. -/
def incrementPendingTransactions (c : Counters) : Counters :=
  { c with pendingTransactions := i64add c.pendingTransactions 1 }

/-- DecrementPendingTransactions: adds −1 to the pending counter. -/
def decrementPendingTransactions (c : Counters) : Counters :=
  { c with pendingTransactions := i64add c.pendingTransactions (-1) }

/-- IncrementTransactionType: payment and refund fall through the switch. -/
def incrementTransactionType (c : Counters) (t : TransactionType) : Counters :=
  match t with
  | .transfer => { c with transferCount := i64add c.transferCount 1 }
  | .deposit => { c with depositCount := i64add c.depositCount 1 }
  | .withdraw => { c with withdrawCount := i64add c.withdrawCount 1 }
  | _ => c

/-- Truncation of a rational toward zero, the mathematical value of Go's
float-to-integer conversion when it is in range. -/
def truncToInt (q : Money) : Int := Int.tdiv q.num q.den

/-- Go conversion int64(q) of a float64 value: truncation toward zero while
the result fits in int64.  For an out-of-range value the Go specification
leaves the result implementation-dependent; amd64 produces the minimum
int64, modelled here (arm64 saturates instead — both produce an extreme
value, and no claim depends on which). -/
def goInt64 (q : Money) : Int :=
  if truncToInt q < int64Min ∨ int64Max < truncToInt q then int64Min
  else truncToInt q

/-- AddAmountProcessed: converts the amount to int64 cents
(int64(amount * 100)), adds it with wrap-around, and CAS-updates the largest
and smallest extremes. -/
def addAmountProcessed (c : Counters) (amount : Money) : Counters :=
  let cents := goInt64 (amount * 100)
  { c with
    totalAmountProcessed := i64add c.totalAmountProcessed cents
    largestTransaction := max c.largestTransaction cents
    smallestTransaction := min c.smallestTransaction cents }

/-- RecordProcessingTime: rolling mean over the successful count (int64
product and sums wrap; the int64 quotient truncates toward zero) plus CAS
extremes for fastest and slowest. -/
def recordProcessingTime (c : Counters) (durationNs : Int) : Counters :=
  let total := c.successfulTransactions
  let newAverage :=
    if total = 0 then durationNs
    else Int.tdiv (i64add (wrap64 (c.averageProcessingTime * total)) durationNs)
      (i64add total 1)
  { c with
    averageProcessingTime := newAverage
    fastestTransaction := min c.fastestTransaction durationNs
    slowestTransaction := max c.slowestTransaction durationNs }

/-- IncrementErrorType: only the three known class strings count. -/
def incrementErrorType (c : Counters) (errorType : String) : Counters :=
  if errorType = "validation" then
    { c with validationErrors := i64add c.validationErrors 1 }
  else if errorType = "insufficient_balance" then
    { c with insufficientBalanceErrors := i64add c.insufficientBalanceErrors 1 }
  else if errorType = "system" then { c with systemErrors := i64add c.systemErrors 1 }
  else c

/-- IncrementRetryCount. -/
def incrementRetryCount (c : Counters) : Counters :=
  { c with retryCount := i64add c.retryCount 1 }

/-- Reset: stores zero everywhere and re-seeds the CAS minima. -/
def resetCounters (_ : Counters) : Counters := initialCounters

/-- RecordTransaction.  The source immediately reads transaction.Type, so a
nil transaction argument dereferences a nil pointer and panics: the embedding
returns none in that case.  Otherwise it increments total, type, amount and
time statistics, then the success or failure counters, decrementing pending
on both branches and classifying the error message on failure. -/
def recordTransaction (c : Counters) (transaction : Option Transaction) (success : Bool)
    (durationNs : Int) (errMsg : Option String) : Option Counters :=
  let c1 := incrementTotalTransactions c
  match transaction with
  | none => none
  | some t =>
    let c2 := incrementTransactionType c1 t.txType
    let c3 := addAmountProcessed c2 t.amount
    let c4 := recordProcessingTime c3 durationNs
    if success then
      some (decrementPendingTransactions (incrementSuccessfulTransactions c4))
    else
      let c5 := decrementPendingTransactions (incrementFailedTransactions c4)
      match errMsg with
      | none => some c5
      | some msg =>
        let errorType :=
          if msg = "yetersiz bakiye" then "insufficient_balance"
          else if msg = "işlem doğrulama hatası" then "validation"
          else "system"
        some (incrementErrorType c5 errorType)

/-- Result published by a worker (processing.TransactionResult).  processJob
always sets the Transaction field to nil, modelled by building results whose
transaction component is ignored by the processor. -/
structure TransactionResult where
  jobId : Nat
  success : Bool
  errMsg : Option String
  processingTimeNs : Int
  jobRetryCount : Nat
deriving DecidableEq, Repr

/-- One iteration of WorkerPool.processResults: the counters record call is
made with a nil transaction pointer ("simplified" in the source). -/
def processOneResult (c : Counters) (r : TransactionResult) : Option Counters :=
  recordTransaction c none r.success r.processingTimeNs r.errMsg

/-- In-memory job of the worker pool (service references elided). -/
structure Job where
  id : Nat
  transactionType : String
  fromAccountID : UserId
  toAccountID : UserId
  amount : Money
  jobRetryCount : Nat
  maxRetries : Nat
deriving DecidableEq, Repr

/-- Worker-pool state visible to submission: the bounded queue, the shutdown
flag (context cancelled) and the counters. -/
structure PoolState where
  queue : List Job
  maxQueueSize : Nat
  shutdown : Bool
  counters : Counters
deriving DecidableEq, Repr

/-- Outcome of WorkerPool.SubmitJob. -/
inductive SubmitOutcome where
  | accepted
  | poolClosed
  | queueFull
deriving DecidableEq, Repr

/-- WorkerPool.SubmitJob: select over send / ctx.Done with a default branch.
The send case is ready exactly when the queue has space; the done case when
the pool is shut down; otherwise the default returns the queue-full error
without blocking.  When both send and done are ready Go picks one at random;
the embedding resolves that race toward the done case (no claim depends on
it). -/
def submitJob (st : PoolState) (j : Job) : PoolState × SubmitOutcome :=
  if st.shutdown then (st, .poolClosed)
  else if st.queue.length < st.maxQueueSize then
    ({ st with
       queue := st.queue ++ [j]
       counters := incrementPendingTransactions st.counters }, .accepted)
  else (st, .queueFull)

/-- What the delayed re-enqueue of a retried job does at the moment its
backoff timer fires. -/
inductive RetryOutcome where
  | requeued (st2 : PoolState)
  | dropped
  | blocked
deriving DecidableEq, Repr

/-- Timer callback of Worker.handleRetry: a select over send and ctx.Done
with no default branch.  With queue space the job is re-enqueued and the
retry counter incremented (the pending counter is not); with the pool shut
down the retry is dropped with a warning; with a full queue and a live pool
neither case is ready and the callback blocks until one becomes ready. -/
def handleRetryFire (st : PoolState) (j : Job) : RetryOutcome :=
  if st.queue.length < st.maxQueueSize ∧ ¬ st.shutdown then
    .requeued { st with
      queue := st.queue ++ [j]
      counters := incrementRetryCount st.counters }
  else if st.shutdown then .dropped
  else .blocked

/-- Counter operations exposed by the counters component, used to state
monotonicity over arbitrary call sequences. -/
inductive CounterOp where
  | incTotal
  | incSuccessful
  | incFailed
  | incPending
  | decPending
  | incType (t : TransactionType)
  | addAmount (amount : Money)
  | recordTime (ns : Int)
  | incError (kind : String)
  | incRetry
  | reset
deriving DecidableEq, Repr

/-- Interpretation of one counter operation. -/
def applyOp (c : Counters) : CounterOp → Counters
  | .incTotal => incrementTotalTransactions c
  | .incSuccessful => incrementSuccessfulTransactions c
  | .incFailed => incrementFailedTransactions c
  | .incPending => incrementPendingTransactions c
  | .decPending => decrementPendingTransactions c
  | .incType t => incrementTransactionType c t
  | .addAmount a => addAmountProcessed c a
  | .recordTime ns => recordProcessingTime c ns
  | .incError k => incrementErrorType c k
  | .incRetry => incrementRetryCount c
  | .reset => resetCounters c

/-- A sequence of counter operations applied in order. -/
def applyOps (c : Counters) (ops : List CounterOp) : Counters :=
  ops.foldl applyOp c

/-- Counter-touching events of the worker pool: a submission increments
pending, a processed result is recorded (with a non-nil transaction, the
arguments RecordTransaction needs to run to completion), a fired retry
increments the retry counter. -/
inductive PoolEvent where
  | submit
  | result (t : Transaction) (success : Bool) (durationNs : Int) (errMsg : Option String)
  | retryFired

/-- Interpretation of one pool event on the counters.  For a result, the
some-transaction branch of recordTransaction always returns some; getD never
falls back. -/
def applyPoolEvent (c : Counters) : PoolEvent → Counters
  | .submit => incrementPendingTransactions c
  | .result t success ns errMsg => (recordTransaction c (some t) success ns errMsg).getD c
  | .retryFired => incrementRetryCount c

/-- A sequence of pool events applied in order. -/
def applyPoolEvents (c : Counters) (evs : List PoolEvent) : Counters :=
  evs.foldl applyPoolEvent c

/-- Pointwise inequality on the cumulative counter fields: the counts, the
processed-amount total, and the CAS-maximum extremes.  The pending counter,
the CAS-minimum extremes and the rolling mean are deliberately absent: they
are not monotone in the source. -/
def CounterLe (c d : Counters) : Prop :=
  c.totalTransactions ≤ d.totalTransactions ∧
  c.successfulTransactions ≤ d.successfulTransactions ∧
  c.failedTransactions ≤ d.failedTransactions ∧
  c.transferCount ≤ d.transferCount ∧
  c.depositCount ≤ d.depositCount ∧
  c.withdrawCount ≤ d.withdrawCount ∧
  c.totalAmountProcessed ≤ d.totalAmountProcessed ∧
  c.largestTransaction ≤ d.largestTransaction ∧
  c.slowestTransaction ≤ d.slowestTransaction ∧
  c.validationErrors ≤ d.validationErrors ∧
  c.insufficientBalanceErrors ≤ d.insufficientBalanceErrors ∧
  c.systemErrors ≤ d.systemErrors ∧
  c.retryCount ≤ d.retryCount

/-- Membership in the signed 64-bit range. -/
def InRange64 (n : Int) : Prop := int64Min ≤ n ∧ n ≤ int64Max

/-- No-overflow condition for one counter operation at a given state: the
int64 addition the operation performs does not wrap (and, for the amount
statistics, the recorded amount is non-negative — as every amount the
primitives accept is — with its cents value representable in int64).
Operations touching only untracked fields carry no condition. -/
def CounterOpSafe (c : Counters) : CounterOp → Prop
  | .incTotal => InRange64 (c.totalTransactions + 1)
  | .incSuccessful => InRange64 (c.successfulTransactions + 1)
  | .incFailed => InRange64 (c.failedTransactions + 1)
  | .incPending => True
  | .decPending => True
  | .incType t =>
    match t with
    | .transfer => InRange64 (c.transferCount + 1)
    | .deposit => InRange64 (c.depositCount + 1)
    | .withdraw => InRange64 (c.withdrawCount + 1)
    | _ => True
  | .addAmount a => 0 ≤ a ∧ InRange64 (truncToInt (a * 100)) ∧
      InRange64 (c.totalAmountProcessed + truncToInt (a * 100))
  | .recordTime _ => True
  | .incError k =>
    (k = "validation" → InRange64 (c.validationErrors + 1)) ∧
    (k = "insufficient_balance" → InRange64 (c.insufficientBalanceErrors + 1)) ∧
    (k = "system" → InRange64 (c.systemErrors + 1))
  | .incRetry => InRange64 (c.retryCount + 1)
  | .reset => True

/-- Number of result events in a pool history (each one records exactly one
terminal outcome into the counters). -/
def resultEvents : List PoolEvent → Nat
  | [] => 0
  | PoolEvent.result _ _ _ _ :: rest => resultEvents rest + 1
  | _ :: rest => resultEvents rest

/-- Concrete store used by witnesses and counterexamples: user 1 holds 10,
user 2 holds 1000, user 3 holds 5,000,000; the cache holds a balance entry
and a transaction-list entry for user 2, as the Redis backend stores them. -/
def demoStore : Store :=
  { balances := fun u =>
      if u = 1 then some 10
      else if u = 2 then some 1000
      else if u = 3 then some 5000000
      else none
    ledger := []
    history := []
    auditLogs := []
    cache := fun k =>
      if k = "balance:2" then some (GoVal.str "1000.00")
      else if k = "transactions:2:50:0::" then some (GoVal.str "[]")
      else none }

/-- The job already occupying the saturated queue. -/
def queuedJob : Job :=
  { id := 1, transactionType := "credit", fromAccountID := 0, toAccountID := 2,
    amount := 50, jobRetryCount := 0, maxRetries := 3 }

/-- Concrete one-element saturated pool used for the queue-full scenarios. -/
def fullPoolState : PoolState :=
  { queue := [queuedJob]
    maxQueueSize := 1
    shutdown := false
    counters := initialCounters }

/-- A retried job waiting behind the full queue. -/
def retriedJob : Job :=
  { id := 2, transactionType := "debit", fromAccountID := 1, toAccountID := 0,
    amount := 5, jobRetryCount := 1, maxRetries := 3 }

/-- The same saturated pool after shutdown was initiated. -/
def shutPoolState : PoolState := { fullPoolState with shutdown := true }

/-- Audit trail of one balance mutation at time 1, as the audit service
records it for a user. -/
def demoLogs : List AuditLog := [{ id := 10, action := "BALANCE_UPDATE", createdAt := 1 }]

/-- The balance_history rows the repository persisted for the same mutation:
the real new amount, 100, is stored. -/
def demoHistoryRows : List BalanceHistory :=
  [{ id := 10, userId := 1, previousAmount := 0, newAmount := 100, changeAmount := 0,
     changeType := "BALANCE_UPDATE", createdAt := 1 }]

/-- The row the handler derives from demoLogs (amount fields left at zero). -/
def demoDerivedRow : BalanceHistory :=
  { id := 10, userId := 1, previousAmount := 0, newAmount := 0, changeAmount := 0,
    changeType := "BALANCE_UPDATE", createdAt := 1 }

/-- A completed ledger row used to drive the counters in witnesses. -/
def demoTx : Transaction :=
  { id := 99, fromUserID := none, toUserID := some 2, amount := 5,
    txType := .deposit, status := .completed, reference := "", createdAt := 0 }

/-- Claim C1: for distinct accounts and a positive amount, a successful
Transfer commits a state in which the sender's balance decreased by exactly
the amount and the receiver's increased by exactly the amount, and both
effects live in one store transaction: every run either succeeds with both
balance changes committed or fails with the store unchanged (neither change
committed). -/
theorem transfer_commits_both_deltas_atomically
    (s : Store) (a b : UserId) (x : Money) (txId now : Nat) :
    (∃ s2 ba bb, transfer s a b x txId now = (s2, none) ∧ a ≠ b ∧ 0 < x ∧
      s.balances a = some ba ∧ s.balances b = some bb ∧
      s2.balances a = some (ba - x) ∧ s2.balances b = some (bb + x)) ∨
    (∃ e, transfer s a b x txId now = (s, some e)) := by
  by_cases hab : a = b
  · exact Or.inr ⟨.sameAccount, by simp [transfer, hab]⟩
  by_cases hx : x ≤ 0
  · exact Or.inr ⟨.amountNotPositive, by simp [transfer, hab, hx]⟩
  cases hba : s.balances a with
  | none => exact Or.inr ⟨.balanceNotFound, by simp [transfer, hab, hx, hba]⟩
  | some ba =>
    by_cases hlt : ba < x
    · exact Or.inr ⟨.insufficientBalance, by simp [transfer, hab, hx, hba, hlt]⟩
    cases hbb : s.balances b with
    | none => exact Or.inr ⟨.balanceNotFound, by simp [transfer, hab, hx, hba, hlt, hbb]⟩
    | some bb =>
      left
      have hba2 : ¬ b = a := fun h => hab h.symm
      have h2 : (transfer s a b x txId now).2 = none := by
        simp [transfer, hab, hx, hba, hlt, hbb]
      have h1a : (transfer s a b x txId now).1.balances a = some (ba - x) := by
        simp [transfer, hab, hx, hba, hlt, hbb, hba2]
      have h1b : (transfer s a b x txId now).1.balances b = some (bb + x) := by
        simp [transfer, hab, hx, hba, hlt, hbb, hba2]
      exact ⟨(transfer s a b x txId now).1, ba, bb, by rw [← h2], hab, not_le.mp hx,
        rfl, rfl, h1a, h1b⟩

/-- Claim C2: when the balance read inside the Debit store transaction is
smaller than the requested amount, Debit returns the insufficient-balance
error and the transaction rolls back: the balance row, the balance-history
table and the ledger are exactly as before — in particular no balance-history
row and no completed ledger row reflecting the debit exists (this code path
does not even persist a failed row, which the claim permits). -/
theorem debit_insufficient_balance_rolls_back
    (s : Store) (u : UserId) (x b : Money) (txId now : Nat)
    (hb : s.balances u = some b) (hx : 0 < x) (hlt : b < x) :
    debit s u x txId now = (s, some ServiceError.insufficientBalance) ∧
    (debit s u x txId now).1.balances u = some b ∧
    (debit s u x txId now).1.history = s.history ∧
    (debit s u x txId now).1.ledger = s.ledger := by
  have hni : ¬ x ≤ 0 := not_le.mpr hx
  have h1 : debit s u x txId now = (s, some ServiceError.insufficientBalance) := by
    simp [debit, hni, hb, hlt]
  refine ⟨h1, ?_, ?_, ?_⟩
  · rw [h1]; exact hb
  · rw [h1]
  · rw [h1]

/-- Witness for the debit rollback theorem: balance 10, request 25. -/
theorem debit_insufficient_balance_rolls_back_witness :
    debit demoStore 1 25 7 0 = (demoStore, some ServiceError.insufficientBalance) ∧
    (debit demoStore 1 25 7 0).1.balances 1 = some 10 ∧
    (debit demoStore 1 25 7 0).1.history = demoStore.history ∧
    (debit demoStore 1 25 7 0).1.ledger = demoStore.ledger :=
  debit_insufficient_balance_rolls_back demoStore 1 25 10 7 0 rfl (by norm_num) (by norm_num)

/-- Claim C3 counterexample: Credit with amount 2,000,000 (above the claimed
1,000,000 cap) is not rejected — it returns no error and commits the balance
change — even though the model-level Validate would reject that amount. -/
theorem credit_over_million_accepted_cex :
    (credit demoStore 2 2000000 9 0).2 = none ∧
    (credit demoStore 2 2000000 9 0).1.balances 2 = some 2001000 ∧
    transactionValidate
      { id := 9, fromUserID := none, toUserID := some 2, amount := 2000000,
        txType := .deposit, status := .pending, reference := "Credit transaction",
        createdAt := 0 } = some ServiceError.amountTooHigh := by
  have h0 : ¬ (2000000 : Money) ≤ 0 := by norm_num
  have hcap : (1000000 : Money) < 2000000 := by norm_num
  refine ⟨?_, ?_, ?_⟩
  · simp [credit, demoStore, h0]
  · simp [credit, demoStore, setBalance, h0]
    norm_num
  · simp [transactionValidate, h0, hcap]

/-- Claim C3 amended: the mutation primitives enforce only the lower bound
(amount must be positive; Transfer also rejects self-transfer); the
1,000,000 upper limit lives only in the model's Validate method, which these
paths never call, so any amount above 1,000,000 is processed normally. -/
theorem primitives_lack_upper_amount_cap
    (s : Store) (u v : UserId) (x bu bv : Money) (txId now : Nat)
    (hu : s.balances u = some bu) (hv : s.balances v = some bv)
    (huv : u ≠ v) (hcap : 1000000 < x) (hble : x ≤ bu) :
    (credit s u x txId now).2 = none ∧
    (debit s u x txId now).2 = none ∧
    (transfer s u v x txId now).2 = none ∧
    transactionValidate
      { id := txId, fromUserID := none, toUserID := some u, amount := x,
        txType := .deposit, status := .pending, reference := "Credit transaction",
        createdAt := now } = some ServiceError.amountTooHigh := by
  have hpos : 0 < x := lt_trans (by norm_num) hcap
  have hni : ¬ x ≤ 0 := not_le.mpr hpos
  have hnlt : ¬ bu < x := not_lt.mpr hble
  refine ⟨?_, ?_, ?_, ?_⟩
  · simp [credit, hni, hu]
  · simp [debit, hni, hu, hnlt]
  · simp [transfer, huv, hni, hu, hnlt, hv]
  · simp [transactionValidate, hni, hcap]

/-- Witness for the missing upper cap: amount 2,000,000 against user 3
(balance 5,000,000), transferring to user 2. -/
theorem primitives_lack_upper_amount_cap_witness :
    (credit demoStore 3 2000000 11 0).2 = none ∧
    (debit demoStore 3 2000000 11 0).2 = none ∧
    (transfer demoStore 3 2 2000000 11 0).2 = none ∧
    transactionValidate
      { id := 11, fromUserID := none, toUserID := some 3, amount := 2000000,
        txType := .deposit, status := .pending, reference := "Credit transaction",
        createdAt := 0 } = some ServiceError.amountTooHigh :=
  primitives_lack_upper_amount_cap demoStore 3 2 2000000 5000000 1000 11 0
    rfl rfl (by decide) (by norm_num) (by norm_num)

/-- Claim C4 counterexample: after a successful Credit for user 2, neither
the balance cache key nor the cached transaction list of user 2 has been
invalidated — both entries are still exactly as before the commit. -/
theorem credit_leaves_cache_stale_cex :
    (credit demoStore 2 50 21 0).2 = none ∧
    (credit demoStore 2 50 21 0).1.balances 2 = some 1050 ∧
    (credit demoStore 2 50 21 0).1.cache "balance:2" = some (GoVal.str "1000.00") ∧
    (credit demoStore 2 50 21 0).1.cache "transactions:2:50:0::" = some (GoVal.str "[]") := by
  have h0 : ¬ (50 : Money) ≤ 0 := by norm_num
  refine ⟨?_, ?_, ?_, ?_⟩
  · simp [credit, demoStore, h0]
  · simp [credit, demoStore, setBalance, h0]
    norm_num
  · simp [credit, demoStore, setBalance, h0]
  · simp [credit, demoStore, setBalance, h0]

/-- Claim C4 amended: Credit, Debit and Transfer perform no cache operation
at all — the cache after any of them is exactly the cache before — and the
only balance-mutating path that invalidates is SafeUpdateBalance (same for
UpdateBalance), which deletes exactly the balance:\x7bU\x7d key and no
transaction-list key. -/
theorem mutation_primitives_do_not_invalidate_cache
    (s s2 : Store) (u v : UserId) (x : Money) (txId now : Nat) :
    (credit s u x txId now).1.cache = s.cache ∧
    (debit s u x txId now).1.cache = s.cache ∧
    (transfer s u v x txId now).1.cache = s.cache ∧
    (safeUpdateBalance s u x txId now = (s2, none) →
      s2.cache (balanceKey u) = none ∧
      ∀ k, k ≠ balanceKey u → s2.cache k = s.cache k) := by
  refine ⟨?_, ?_, ?_, ?_⟩
  · unfold credit
    (repeat' split) <;> rfl
  · unfold debit
    (repeat' split) <;> rfl
  · unfold transfer
    (repeat' split) <;> rfl
  · intro hsafe
    unfold safeUpdateBalance at hsafe
    cases hcur : s.balances u with
    | none => rw [hcur] at hsafe; simp at hsafe
    | some current =>
      rw [hcur] at hsafe
      by_cases hneg : current + x < 0
      · simp [hneg] at hsafe
      · simp only [if_neg hneg, Prod.mk.injEq] at hsafe
        obtain ⟨hs2, -⟩ := hsafe
        constructor
        · rw [← hs2]; simp
        · intro k hk
          rw [← hs2]; simp [hk, setBalance]

/-- Witness for the cache behaviour of the mutation paths: a credit on user 2
leaves the cache untouched, and a successful SafeUpdateBalance on user 2
really deletes the balance key while keeping other keys. -/
theorem mutation_primitives_do_not_invalidate_cache_witness :
    (credit demoStore 2 50 31 0).1.cache = demoStore.cache ∧
    (safeUpdateBalance demoStore 2 50 31 0).1.cache (balanceKey 2) = none ∧
    (safeUpdateBalance demoStore 2 50 31 0).1.cache "transactions:2:50:0::" =
      demoStore.cache "transactions:2:50:0::" := by
  have h2 : (safeUpdateBalance demoStore 2 50 31 0).2 = none := by
    norm_num [safeUpdateBalance, demoStore]
  have hEq : safeUpdateBalance demoStore 2 50 31 0 =
      ((safeUpdateBalance demoStore 2 50 31 0).1, none) := by rw [← h2]
  have hmain := mutation_primitives_do_not_invalidate_cache demoStore
    (safeUpdateBalance demoStore 2 50 31 0).1 2 1 50 31 0
  have hkey : "transactions:2:50:0::" ≠ balanceKey 2 := by decide
  exact ⟨hmain.1, (hmain.2.2.2 hEq).1, (hmain.2.2.2 hEq).2 _ hkey⟩

/-- Claim C10: with the Redis backend every present cache value comes back as
a string, and the GetBalance hit branch insists on a float64, so the read
always falls through to the repository: whatever the Redis contents, the
value returned is the repository value and the cache-hit branch is not
taken. -/
theorem redis_cached_balance_never_hit
    (store : String → Option String) (b : Money) (u : UserId) :
    getBalanceThroughCache (redisGet store) (some b) u = some (b, false) := by
  unfold getBalanceThroughCache redisGet
  cases store (balanceKey u) <;> simp

/-- Claim C5 (code defect): the result processor invokes RecordTransaction
with a nil transaction pointer for every published result, and
RecordTransaction dereferences transaction.Type unconditionally, so the
counter-recording step panics (modelled as none) on every result rather than
never failing. -/
theorem record_transaction_nil_dereference (c : Counters) (r : TransactionResult) :
    processOneResult c r = none := by
  unfold processOneResult recordTransaction
  rfl

/-- Claim C6 counterexample: with the queue full and the pool live,
first-time submission fails immediately with the queue-full outcome, but the
fired retry does not fail immediately — it blocks waiting for queue space
(it is not dropped either). -/
theorem retry_blocks_on_full_queue_cex :
    (submitJob fullPoolState retriedJob).2 = SubmitOutcome.queueFull ∧
    handleRetryFire fullPoolState retriedJob = RetryOutcome.blocked ∧
    handleRetryFire fullPoolState retriedJob ≠ RetryOutcome.dropped := by
  refine ⟨rfl, rfl, ?_⟩
  decide

/-- Claim C6 amended: the delayed re-enqueue bypasses SubmitJob and its
non-blocking check.  When the backoff timer fires with the queue full and the
pool live, the callback blocks until space frees or shutdown (it neither
fails nor drops), while SubmitJob in the same state fails immediately; with
the pool shutting down the retry is dropped; with queue space it re-enqueues
the job and increments the retry counter without touching the pending
counter. -/
theorem retry_enqueue_blocking_behaviour (st : PoolState) (j : Job) :
    (st.maxQueueSize ≤ st.queue.length → st.shutdown = false →
      handleRetryFire st j = RetryOutcome.blocked ∧
      (submitJob st j).2 = SubmitOutcome.queueFull) ∧
    (st.shutdown = true → handleRetryFire st j = RetryOutcome.dropped) ∧
    (st.queue.length < st.maxQueueSize → st.shutdown = false →
      handleRetryFire st j = RetryOutcome.requeued { st with
        queue := st.queue ++ [j]
        counters := incrementRetryCount st.counters } ∧
      (incrementRetryCount st.counters).pendingTransactions
        = st.counters.pendingTransactions) := by
  refine ⟨?_, ?_, ?_⟩
  · intro hfull hs
    have hnlt : ¬ st.queue.length < st.maxQueueSize := not_lt.mpr hfull
    exact ⟨by simp [handleRetryFire, hnlt, hs], by simp [submitJob, hnlt, hs]⟩
  · intro hs
    simp [handleRetryFire, hs]
  · intro hq hs
    exact ⟨by simp [handleRetryFire, hq, hs], rfl⟩

/-- Witness for the retry behaviour: the saturated live pool blocks the retry
while rejecting a submission, and the shut-down pool drops it. -/
theorem retry_enqueue_blocking_behaviour_witness :
    handleRetryFire fullPoolState retriedJob = RetryOutcome.blocked ∧
    (submitJob fullPoolState retriedJob).2 = SubmitOutcome.queueFull ∧
    handleRetryFire shutPoolState retriedJob = RetryOutcome.dropped := by
  have h1 := retry_enqueue_blocking_behaviour fullPoolState retriedJob
  have h2 := retry_enqueue_blocking_behaviour shutPoolState retriedJob
  exact ⟨(h1.1 (by decide) rfl).1, (h1.1 (by decide) rfl).2, h2.2.1 rfl⟩

/-- Claim C9 counterexample: a requested limit of 200 produces the default
50, not the claimed clamp value 100; a requested limit of 0 produces 50, not
the claimed 1. -/
theorem limit_default_not_clamped_cex :
    effectiveLimit (some 200) = 50 ∧ specClampLimit (some 200) = 100 ∧
    effectiveLimit (some 0) = 50 ∧ specClampLimit (some 0) = 1 :=
  ⟨rfl, rfl, rfl, rfl⟩

/-- Claim C9 amended: the handler replaces an unparsable or out-of-range
limit by the default 50 instead of clamping — values in [1, 100] pass
through, everything else (including 0 and 200) becomes 50, and an absent
parameter defaults to 50 — while the offset behaves as claimed: negative or
unparsable becomes 0, otherwise it passes through. -/
theorem effective_limit_offset_behaviour (n m : Int)
    (hn : 1 ≤ n) (hn2 : n ≤ 100) (hm : 0 ≤ m) :
    effectiveLimit (some n) = n ∧
    effectiveLimit none = 50 ∧
    (∀ k : Int, k ≤ 0 ∨ 100 < k → effectiveLimit (some k) = 50) ∧
    effectiveOffset (some m) = m ∧
    effectiveOffset none = 0 ∧
    (∀ k : Int, k < 0 → effectiveOffset (some k) = 0) := by
  refine ⟨?_, rfl, ?_, ?_, rfl, ?_⟩
  · have h1 : ¬ (n ≤ 0 ∨ 100 < n) := by omega
    simp [effectiveLimit, h1]
  · intro k hk
    simp [effectiveLimit, hk]
  · have h2 : ¬ m < 0 := not_lt.mpr hm
    simp [effectiveOffset, h2]
  · intro k hk
    simp [effectiveOffset, hk]

/-- Witness for the limit and offset behaviour at 50, 200, 7 and −3. -/
theorem effective_limit_offset_behaviour_witness :
    effectiveLimit (some 50) = 50 ∧ effectiveLimit (some 200) = 50 ∧
    effectiveOffset (some 7) = 7 ∧ effectiveOffset (some (-3)) = 0 := by
  have h := effective_limit_offset_behaviour 50 7 (by norm_num) (by norm_num) (by norm_num)
  exact ⟨h.1, h.2.2.1 200 (by norm_num), h.2.2.2.1, h.2.2.2.2.2 (-3) (by norm_num)⟩

/-- When no row is at or before the timestamp, the handler scan keeps its
accumulator. -/
theorem scanAux_skip (rows : List BalanceHistory) (ts : Nat) (acc : Option Money)
    (h : ∀ e ∈ rows, ¬ e.createdAt ≤ ts) :
    rows.foldl (fun a e => if e.createdAt ≤ ts then some e.newAmount else a) acc = acc := by
  induction rows generalizing acc with
  | nil => rfl
  | cons e rest ih =>
    have he : ¬ e.createdAt ≤ ts := h e (List.mem_cons_self e rest)
    simp only [List.foldl_cons, if_neg he]
    exact ih acc (fun x hx => h x (List.mem_cons_of_mem _ hx))

/-- Over rows whose new_amount fields are all zero, the handler scan returns
some 0 as soon as a qualifying row exists (or the accumulator already holds
zero). -/
theorem scanAux_zero (rows : List BalanceHistory) (ts : Nat) (acc : Option Money)
    (hz : ∀ e ∈ rows, e.newAmount = 0)
    (hex : (∃ e, e ∈ rows ∧ e.createdAt ≤ ts) ∨ acc = some 0) :
    rows.foldl (fun a e => if e.createdAt ≤ ts then some e.newAmount else a) acc = some 0 := by
  induction rows generalizing acc with
  | nil =>
    rcases hex with ⟨e, he, -⟩ | hacc
    · simp at he
    · simpa using hacc
  | cons e rest ih =>
    have hz0 : e.newAmount = 0 := hz e (List.mem_cons_self e rest)
    have hzr : ∀ x ∈ rest, x.newAmount = 0 := fun x hx => hz x (List.mem_cons_of_mem _ hx)
    by_cases hle : e.createdAt ≤ ts
    · simp only [List.foldl_cons, if_pos hle]
      exact ih _ hzr (Or.inr (by rw [hz0]))
    · simp only [List.foldl_cons, if_neg hle]
      refine ih acc hzr ?_
      rcases hex with ⟨e2, he2, hts2⟩ | hacc
      · rcases List.mem_cons.mp he2 with rfl | hmem
        · exact absurd hts2 hle
        · exact Or.inl ⟨e2, hmem, hts2⟩
      · exact Or.inr hacc

/-- Claim C7 counterexample: one balance mutation at time 1 wrote the real
new amount 100 into balance_history, yet the handler — which scans
audit-log-derived rows whose amount fields are never populated — reports
balance 0 at time 2, where the claimed derivation over BalanceHistory yields
100. -/
theorem balance_at_time_ignores_amounts_cex :
    getBalanceAtTime demoLogs 1 2 100 = 0 ∧
    specBalanceAt demoHistoryRows 2 100 = 100 ∧
    (0 : Money) ≠ 100 := by
  refine ⟨rfl, rfl, by norm_num⟩

/-- Claim C7 amended: get_balance_at scans rows derived from the user's audit
logs (actions BALANCE_UPDATE / BALANCE_CREDIT / BALANCE_DEBIT) whose
new_amount field is never populated; whenever at least one derived row has
created_at ≤ ts the handler returns 0 regardless of the real history
amounts, and only when no derived row qualifies does it return the current
balance. -/
theorem balance_at_time_returns_zero_or_current
    (logs : List AuditLog) (uid : UserId) (ts : Nat) (cur : Money) :
    ((∃ e, e ∈ getBalanceHistoryFromAudit logs uid ∧ e.createdAt ≤ ts) →
      getBalanceAtTime logs uid ts cur = 0) ∧
    ((∀ e ∈ getBalanceHistoryFromAudit logs uid, ¬ e.createdAt ≤ ts) →
      getBalanceAtTime logs uid ts cur = cur) := by
  have hz : ∀ e ∈ getBalanceHistoryFromAudit logs uid, e.newAmount = 0 := by
    intro e he
    unfold getBalanceHistoryFromAudit at he
    obtain ⟨l, -, rfl⟩ := List.mem_map.mp he
    rfl
  constructor
  · intro hex
    have hscan := scanAux_zero (getBalanceHistoryFromAudit logs uid) ts none hz (Or.inl hex)
    unfold getBalanceAtTime scanBalanceAt
    rw [hscan]
  · intro hall
    have hscan := scanAux_skip (getBalanceHistoryFromAudit logs uid) ts none hall
    unfold getBalanceAtTime scanBalanceAt
    rw [hscan]

/-- Witness for the handler behaviour: at time 2 the single derived row
qualifies and 0 is returned; at time 0 nothing qualifies and the current
balance 100 is returned. -/
theorem balance_at_time_returns_zero_or_current_witness :
    getBalanceAtTime demoLogs 1 2 100 = (0 : Money) ∧
    getBalanceAtTime demoLogs 1 0 100 = (100 : Money) := by
  have h2 := balance_at_time_returns_zero_or_current demoLogs 1 2 100
  have h0 := balance_at_time_returns_zero_or_current demoLogs 1 0 100
  constructor
  · exact h2.1 ⟨demoDerivedRow, by decide, by decide⟩
  · exact h0.2 (by decide)

/-- Claim C8 counterexample: the pending-transactions counter strictly
decreases when DecrementPendingTransactions runs after a single increment
(1 then 0), and the int64 cents accumulator wraps below its previous value
after two additions of an amount the uncapped primitives accept, so neither
the pending counter nor total-amount-processed is monotonically
non-decreasing. -/
theorem counters_decrease_cex :
    (applyOps initialCounters [CounterOp.incPending]).pendingTransactions = 1 ∧
    (applyOps initialCounters
      [CounterOp.incPending, CounterOp.decPending]).pendingTransactions = 0 ∧
    (applyOps initialCounters
      [CounterOp.addAmount 92233720368547758]).totalAmountProcessed
      = 9223372036854775800 ∧
    (applyOps initialCounters
      [CounterOp.addAmount 92233720368547758,
        CounterOp.addAmount 92233720368547758]).totalAmountProcessed = -16 := by
  refine ⟨?_, ?_, ?_, ?_⟩ <;>
    norm_num [applyOps, applyOp, List.foldl_cons, List.foldl_nil,
      incrementPendingTransactions, decrementPendingTransactions,
      addAmountProcessed, goInt64, truncToInt, i64add, wrap64,
      int64Min, int64Max, initialCounters]

/-- The type-count switch never touches the outcome counters. -/
theorem incrementTransactionType_outcomes (c : Counters) (t : TransactionType) :
    (incrementTransactionType c t).totalTransactions = c.totalTransactions ∧
    (incrementTransactionType c t).successfulTransactions = c.successfulTransactions ∧
    (incrementTransactionType c t).failedTransactions = c.failedTransactions := by
  cases t <;> exact ⟨rfl, rfl, rfl⟩

/-- The error-class switch never touches the outcome counters. -/
theorem incrementErrorType_outcomes (c : Counters) (k : String) :
    (incrementErrorType c k).totalTransactions = c.totalTransactions ∧
    (incrementErrorType c k).successfulTransactions = c.successfulTransactions ∧
    (incrementErrorType c k).failedTransactions = c.failedTransactions := by
  unfold incrementErrorType
  split_ifs <;> exact ⟨rfl, rfl, rfl⟩

/-- Inside the signed 64-bit range the int64 wrap is the identity. -/
theorem wrap64_eq_of_range (n : Int) (h1 : int64Min ≤ n) (h2 : n ≤ int64Max) :
    wrap64 n = n := by
  have e1 : int64Min = -9223372036854775808 := by norm_num [int64Min]
  have e2 : int64Max = 9223372036854775807 := by norm_num [int64Max]
  have e3 : (2 : Int) ^ 63 = 9223372036854775808 := by norm_num
  have e4 : (2 : Int) ^ 64 = 18446744073709551616 := by norm_num
  rw [e1] at h1
  rw [e2] at h2
  unfold wrap64
  rw [e3, e4]
  omega

/-- One non-Reset counter operation whose int64 update does not wrap never
decreases any cumulative counter. -/
theorem applyOp_counterLe (c : Counters) (o : CounterOp) (hne : o ≠ CounterOp.reset)
    (hok : CounterOpSafe c o) : CounterLe c (applyOp c o) := by
  unfold CounterLe
  cases o with
  | reset => exact absurd rfl hne
  | incTotal =>
    simp only [CounterOpSafe, InRange64] at hok
    have hw := wrap64_eq_of_range _ hok.1 hok.2
    dsimp only [applyOp, incrementTotalTransactions, i64add]
    rw [hw]
    omega
  | incSuccessful =>
    simp only [CounterOpSafe, InRange64] at hok
    have hw := wrap64_eq_of_range _ hok.1 hok.2
    dsimp only [applyOp, incrementSuccessfulTransactions, i64add]
    rw [hw]
    omega
  | incFailed =>
    simp only [CounterOpSafe, InRange64] at hok
    have hw := wrap64_eq_of_range _ hok.1 hok.2
    dsimp only [applyOp, incrementFailedTransactions, i64add]
    rw [hw]
    omega
  | incPending =>
    dsimp only [applyOp, incrementPendingTransactions]
    omega
  | decPending =>
    dsimp only [applyOp, decrementPendingTransactions]
    omega
  | incType t =>
    cases t with
    | transfer =>
      simp only [CounterOpSafe, InRange64] at hok
      have hw := wrap64_eq_of_range _ hok.1 hok.2
      dsimp only [applyOp, incrementTransactionType, i64add]
      rw [hw]
      omega
    | deposit =>
      simp only [CounterOpSafe, InRange64] at hok
      have hw := wrap64_eq_of_range _ hok.1 hok.2
      dsimp only [applyOp, incrementTransactionType, i64add]
      rw [hw]
      omega
    | withdraw =>
      simp only [CounterOpSafe, InRange64] at hok
      have hw := wrap64_eq_of_range _ hok.1 hok.2
      dsimp only [applyOp, incrementTransactionType, i64add]
      rw [hw]
      omega
    | payment =>
      dsimp only [applyOp, incrementTransactionType]
      omega
    | refund =>
      dsimp only [applyOp, incrementTransactionType]
      omega
  | addAmount a =>
    simp only [CounterOpSafe, InRange64] at hok
    obtain ⟨ha, ⟨hc1, hc2⟩, hs1, hs2⟩ := hok
    have hcents : 0 ≤ truncToInt (a * 100) := by
      have h1 : 0 ≤ (a * 100 : Money) := by positivity
      have h2 : 0 ≤ (a * 100 : Money).num := Rat.num_nonneg.mpr h1
      exact Int.tdiv_nonneg h2 (Int.ofNat_nonneg _)
    have hg : goInt64 (a * 100) = truncToInt (a * 100) := by
      unfold goInt64
      rw [if_neg]
      omega
    have hw := wrap64_eq_of_range (c.totalAmountProcessed + truncToInt (a * 100)) hs1 hs2
    dsimp only [applyOp, addAmountProcessed, i64add]
    rw [hg, hw]
    refine ⟨le_refl _, le_refl _, le_refl _, le_refl _, le_refl _, le_refl _,
      by omega, le_max_left _ _, le_refl _, le_refl _, le_refl _, le_refl _, le_refl _⟩
  | recordTime ns =>
    dsimp only [applyOp, recordProcessingTime]
    refine ⟨le_refl _, le_refl _, le_refl _, le_refl _, le_refl _, le_refl _,
      le_refl _, le_refl _, le_max_left _ _, le_refl _, le_refl _, le_refl _, le_refl _⟩
  | incError k =>
    simp only [CounterOpSafe, InRange64] at hok
    obtain ⟨hv, hi, hs⟩ := hok
    dsimp only [applyOp]
    unfold incrementErrorType
    split_ifs with h1 h2 h3
    · have hw := wrap64_eq_of_range _ (hv h1).1 (hv h1).2
      dsimp only [i64add]
      rw [hw]
      omega
    · have hw := wrap64_eq_of_range _ (hi h2).1 (hi h2).2
      dsimp only [i64add]
      rw [hw]
      omega
    · have hw := wrap64_eq_of_range _ (hs h3).1 (hs h3).2
      dsimp only [i64add]
      rw [hw]
      omega
    · omega
  | incRetry =>
    simp only [CounterOpSafe, InRange64] at hok
    have hw := wrap64_eq_of_range _ hok.1 hok.2
    dsimp only [applyOp, incrementRetryCount, i64add]
    rw [hw]
    omega

/-- CounterLe is reflexive. -/
theorem counterLe_refl (c : Counters) : CounterLe c c := by
  unfold CounterLe
  omega

/-- CounterLe is transitive. -/
theorem counterLe_trans {a b c : Counters} (h1 : CounterLe a b) (h2 : CounterLe b c) :
    CounterLe a c := by
  unfold CounterLe at h1 h2 ⊢
  omega

/-- Any sequence of non-Reset counter operations in which no step wraps
never decreases a cumulative counter. -/
theorem applyOps_counterLe (ops : List CounterOp) (c : Counters)
    (hne : ∀ o ∈ ops, o ≠ CounterOp.reset)
    (hsafe : ∀ i (hi : i < ops.length),
      CounterOpSafe (applyOps c (ops.take i)) (ops.get ⟨i, hi⟩)) :
    CounterLe c (applyOps c ops) := by
  induction ops generalizing c with
  | nil => exact counterLe_refl c
  | cons o rest ih =>
    have h0 : CounterOpSafe c o := hsafe 0 (Nat.succ_pos _)
    have hstep := applyOp_counterLe c o (hne o (List.mem_cons_self o rest)) h0
    have hrest : CounterLe (applyOp c o) (applyOps (applyOp c o) rest) := by
      refine ih (applyOp c o) (fun x hx => hne x (List.mem_cons_of_mem _ hx)) ?_
      intro i hi
      exact hsafe (i + 1) (Nat.succ_lt_succ hi)
    have hfold : applyOps c (o :: rest) = applyOps (applyOp c o) rest := rfl
    rw [hfold]
    exact counterLe_trans hstep hrest

/-- Outcome-counter projections of the helper updates, as oriented rewrite
rules: the pending decrement, the time and amount statistics leave total,
successful and failed untouched; the outcome increments add one (wrapped). -/
theorem decPending_total (c : Counters) :
    (decrementPendingTransactions c).totalTransactions = c.totalTransactions := rfl

/-- Successful count is unchanged by the pending decrement. -/
theorem decPending_succ (c : Counters) :
    (decrementPendingTransactions c).successfulTransactions = c.successfulTransactions := rfl

/-- Failed count is unchanged by the pending decrement. -/
theorem decPending_failed (c : Counters) :
    (decrementPendingTransactions c).failedTransactions = c.failedTransactions := rfl

/-- Total is unchanged by the failed increment. -/
theorem incFailed_total (c : Counters) :
    (incrementFailedTransactions c).totalTransactions = c.totalTransactions := rfl

/-- Successful count is unchanged by the failed increment. -/
theorem incFailed_succ (c : Counters) :
    (incrementFailedTransactions c).successfulTransactions = c.successfulTransactions := rfl

/-- Failed count grows by one (wrapped) under its increment. -/
theorem incFailed_failed (c : Counters) :
    (incrementFailedTransactions c).failedTransactions
      = i64add c.failedTransactions 1 := rfl

/-- Total is unchanged by the successful increment. -/
theorem incSucc_total (c : Counters) :
    (incrementSuccessfulTransactions c).totalTransactions = c.totalTransactions := rfl

/-- Successful count grows by one (wrapped) under its increment. -/
theorem incSucc_succ (c : Counters) :
    (incrementSuccessfulTransactions c).successfulTransactions
      = i64add c.successfulTransactions 1 := rfl

/-- Failed count is unchanged by the successful increment. -/
theorem incSucc_failed (c : Counters) :
    (incrementSuccessfulTransactions c).failedTransactions = c.failedTransactions := rfl

/-- Total is unchanged by the time statistics. -/
theorem recTime_total (c : Counters) (ns : Int) :
    (recordProcessingTime c ns).totalTransactions = c.totalTransactions := rfl

/-- Successful count is unchanged by the time statistics. -/
theorem recTime_succ (c : Counters) (ns : Int) :
    (recordProcessingTime c ns).successfulTransactions = c.successfulTransactions := rfl

/-- Failed count is unchanged by the time statistics. -/
theorem recTime_failed (c : Counters) (ns : Int) :
    (recordProcessingTime c ns).failedTransactions = c.failedTransactions := rfl

/-- Total is unchanged by the amount statistics. -/
theorem addAmt_total (c : Counters) (a : Money) :
    (addAmountProcessed c a).totalTransactions = c.totalTransactions := rfl

/-- Successful count is unchanged by the amount statistics. -/
theorem addAmt_succ (c : Counters) (a : Money) :
    (addAmountProcessed c a).successfulTransactions = c.successfulTransactions := rfl

/-- Failed count is unchanged by the amount statistics. -/
theorem addAmt_failed (c : Counters) (a : Money) :
    (addAmountProcessed c a).failedTransactions = c.failedTransactions := rfl

/-- Total grows by one (wrapped) under its increment. -/
theorem incTotal_total (c : Counters) :
    (incrementTotalTransactions c).totalTransactions
      = i64add c.totalTransactions 1 := rfl

/-- Successful count is unchanged by the total increment. -/
theorem incTotal_succ (c : Counters) :
    (incrementTotalTransactions c).successfulTransactions = c.successfulTransactions := rfl

/-- Failed count is unchanged by the total increment. -/
theorem incTotal_failed (c : Counters) :
    (incrementTotalTransactions c).failedTransactions = c.failedTransactions := rfl

/-- RecordTransaction on a present transaction always succeeds, and — as
long as the total count cannot wrap — adds one to total and exactly one to
successful-plus-failed, keeping both outcome counters non-negative. -/
theorem recordTransaction_some_spec (c : Counters) (t : Transaction) (success : Bool)
    (ns : Int) (errMsg : Option String)
    (hsucc : 0 ≤ c.successfulTransactions) (hfail : 0 ≤ c.failedTransactions)
    (hinv : c.successfulTransactions + c.failedTransactions ≤ c.totalTransactions)
    (hmax : c.totalTransactions + 1 ≤ int64Max) :
    ∃ d, recordTransaction c (some t) success ns errMsg = some d ∧
      d.totalTransactions = c.totalTransactions + 1 ∧
      d.successfulTransactions + d.failedTransactions
        = c.successfulTransactions + c.failedTransactions + 1 ∧
      0 ≤ d.successfulTransactions ∧ 0 ≤ d.failedTransactions := by
  have hminle : int64Min ≤ 0 := by norm_num [int64Min]
  have hwTot : i64add c.totalTransactions 1 = c.totalTransactions + 1 := by
    unfold i64add
    exact wrap64_eq_of_range _ (by omega) hmax
  have hwSucc : i64add c.successfulTransactions 1 = c.successfulTransactions + 1 := by
    unfold i64add
    exact wrap64_eq_of_range _ (by omega) (by omega)
  have hwFail : i64add c.failedTransactions 1 = c.failedTransactions + 1 := by
    unfold i64add
    exact wrap64_eq_of_range _ (by omega) (by omega)
  obtain ⟨ht1, ht2, ht3⟩ :=
    incrementTransactionType_outcomes (incrementTotalTransactions c) t.txType
  unfold recordTransaction
  dsimp only
  cases success with
  | false =>
    cases errMsg with
    | none =>
      refine ⟨_, rfl, ?_, ?_, ?_, ?_⟩ <;>
        simp only [decPending_total, decPending_succ, decPending_failed,
          incFailed_total, incFailed_succ, incFailed_failed,
          recTime_total, recTime_succ, recTime_failed,
          addAmt_total, addAmt_succ, addAmt_failed,
          ht1, ht2, ht3, incTotal_total, incTotal_succ, incTotal_failed,
          hwTot, hwSucc, hwFail] <;> omega
    | some msg =>
      obtain ⟨he1, he2, he3⟩ := incrementErrorType_outcomes
        (decrementPendingTransactions (incrementFailedTransactions
          (recordProcessingTime (addAmountProcessed
            (incrementTransactionType (incrementTotalTransactions c) t.txType)
            t.amount) ns)))
        (if msg = "yetersiz bakiye" then "insufficient_balance"
          else if msg = "işlem doğrulama hatası" then "validation" else "system")
      refine ⟨_, rfl, ?_, ?_, ?_, ?_⟩ <;>
        simp only [he1, he2, he3, decPending_total, decPending_succ, decPending_failed,
          incFailed_total, incFailed_succ, incFailed_failed,
          recTime_total, recTime_succ, recTime_failed,
          addAmt_total, addAmt_succ, addAmt_failed,
          ht1, ht2, ht3, incTotal_total, incTotal_succ, incTotal_failed,
          hwTot, hwSucc, hwFail] <;> omega
  | true =>
    refine ⟨_, rfl, ?_, ?_, ?_, ?_⟩ <;>
      simp only [decPending_total, decPending_succ, decPending_failed,
        incSucc_total, incSucc_succ, incSucc_failed,
        recTime_total, recTime_succ, recTime_failed,
        addAmt_total, addAmt_succ, addAmt_failed,
        ht1, ht2, ht3, incTotal_total, incTotal_succ, incTotal_failed,
        hwTot, hwSucc, hwFail] <;> omega

/-- Pool-driven counter updates preserve successful + failed ≤ total as long
as the total count cannot wrap across the remaining recorded results. -/
theorem poolEvents_outcome_invariant (evs : List PoolEvent) (c : Counters)
    (hsucc : 0 ≤ c.successfulTransactions) (hfail : 0 ≤ c.failedTransactions)
    (hinv : c.successfulTransactions + c.failedTransactions ≤ c.totalTransactions)
    (hbud : c.totalTransactions + (resultEvents evs : Int) ≤ int64Max) :
    (applyPoolEvents c evs).successfulTransactions
      + (applyPoolEvents c evs).failedTransactions
      ≤ (applyPoolEvents c evs).totalTransactions := by
  induction evs generalizing c with
  | nil => exact hinv
  | cons e rest ih =>
    have hfold : applyPoolEvents c (e :: rest) = applyPoolEvents (applyPoolEvent c e) rest := rfl
    rw [hfold]
    cases e with
    | submit =>
      exact ih (incrementPendingTransactions c) hsucc hfail hinv hbud
    | retryFired =>
      exact ih (incrementRetryCount c) hsucc hfail hinv hbud
    | result t success ns errMsg =>
      have hre : resultEvents (PoolEvent.result t success ns errMsg :: rest)
          = resultEvents rest + 1 := rfl
      have hmax : c.totalTransactions + 1 ≤ int64Max := by
        rw [hre] at hbud
        omega
      obtain ⟨d, hd, hd1, hd2, hd3, hd4⟩ :=
        recordTransaction_some_spec c t success ns errMsg hsucc hfail hinv hmax
      have happ : applyPoolEvent c (PoolEvent.result t success ns errMsg) = d := by
        dsimp only [applyPoolEvent]
        rw [hd]
        rfl
      rw [happ]
      refine ih d hd3 hd4 (by omega) ?_
      rw [hre] at hbud
      omega

/-- Claim C8 amended: the counters are wrapping int64 values, so none of
them is unconditionally monotone: the pending counter is decremented
directly, Reset zeroes everything, the CAS-minimum extremes and the rolling
mean can decrease, and the int64 cents accumulator of total-amount-processed
wraps at amounts the uncapped primitives accept.  What does hold: over any
sequence of non-Reset counter operations in which no int64 update wraps,
every cumulative counter is monotonically non-decreasing, and
successful + failed ≤ total is preserved by the counter updates the worker
pool performs (submission, result recording, retries) as long as the total
count cannot wrap across the recorded results. -/
theorem counters_monotone_and_pool_invariant
    (ops : List CounterOp) (c : Counters)
    (hne : ∀ o ∈ ops, o ≠ CounterOp.reset)
    (hsafe : ∀ i (hi : i < ops.length),
      CounterOpSafe (applyOps c (ops.take i)) (ops.get ⟨i, hi⟩))
    (evs : List PoolEvent) (c0 : Counters)
    (h0s : 0 ≤ c0.successfulTransactions) (h0f : 0 ≤ c0.failedTransactions)
    (hinv : c0.successfulTransactions + c0.failedTransactions ≤ c0.totalTransactions)
    (hbud : c0.totalTransactions + (resultEvents evs : Int) ≤ int64Max) :
    CounterLe c (applyOps c ops) ∧
    (applyPoolEvents c0 evs).successfulTransactions
      + (applyPoolEvents c0 evs).failedTransactions
      ≤ (applyPoolEvents c0 evs).totalTransactions :=
  ⟨applyOps_counterLe ops c hne hsafe, poolEvents_outcome_invariant evs c0 h0s h0f hinv hbud⟩

/-- Witness for the counter properties: a concrete two-operation list whose
steps stay inside the int64 range, and a concrete three-event pool history. -/
theorem counters_monotone_and_pool_invariant_witness :
    CounterLe initialCounters (applyOps initialCounters
      [CounterOp.incTotal, CounterOp.addAmount 5]) ∧
    (applyPoolEvents initialCounters
        [PoolEvent.submit, PoolEvent.result demoTx true 10 none,
          PoolEvent.result demoTx false 3 (some "yetersiz bakiye")]).successfulTransactions
      + (applyPoolEvents initialCounters
        [PoolEvent.submit, PoolEvent.result demoTx true 10 none,
          PoolEvent.result demoTx false 3 (some "yetersiz bakiye")]).failedTransactions
      ≤ (applyPoolEvents initialCounters
        [PoolEvent.submit, PoolEvent.result demoTx true 10 none,
          PoolEvent.result demoTx false 3 (some "yetersiz bakiye")]).totalTransactions := by
  apply counters_monotone_and_pool_invariant
  · intro o ho
    simp only [List.mem_cons, List.not_mem_nil, or_false] at ho
    rcases ho with rfl | rfl
    · decide
    · decide
  · intro i hi
    simp only [List.length_cons, List.length_nil] at hi
    interval_cases i
    · show CounterOpSafe initialCounters CounterOp.incTotal
      simp only [CounterOpSafe, InRange64]
      norm_num [initialCounters, int64Min, int64Max]
    · show CounterOpSafe (applyOps initialCounters [CounterOp.incTotal])
        (CounterOp.addAmount 5)
      simp only [CounterOpSafe, InRange64]
      refine ⟨by norm_num, ⟨?_, ?_⟩, ?_, ?_⟩ <;>
        norm_num [truncToInt, int64Min, int64Max, applyOps, applyOp,
          List.foldl_cons, List.foldl_nil, incrementTotalTransactions, initialCounters]
  · norm_num [initialCounters]
  · norm_num [initialCounters]
  · norm_num [initialCounters]
  · norm_num [initialCounters, resultEvents, int64Max]

end Banking
